import Mathlib

/-!
Verification of the automated-file-organizer core
(`src/organizer/file_mover.py`) against its specification.

The filesystem is modelled as an association list of files
(path ↦ byte content) together with a list of existing directories.
Paths are lists of components; contents are opaque strings.
-/

set_option autoImplicit false

namespace FileOrganizer

abbrev FilePath' := List String
abbrev Content := String

/-- A snapshot of the filesystem: regular files with their contents,
and the set of directories. -/
structure FS where
  files : List (FilePath' × Content)
  dirs : List FilePath'
deriving Repr, DecidableEq

/-- `Path.exists() and Path.is_file()` — the path denotes a regular file. -/
def FS.isFile (fs : FS) (p : FilePath') : Bool :=
  (fs.files.lookup p).isSome

/-- `Path.is_dir()` — the path denotes a directory. -/
def FS.isDir (fs : FS) (p : FilePath') : Bool :=
  fs.dirs.contains p

/-- `Path.exists()` — the path denotes a file or a directory. -/
def FS.pathExists (fs : FS) (p : FilePath') : Bool :=
  fs.isFile p || fs.isDir p

/-- Read a file's byte content. -/
def FS.readFile (fs : FS) (p : FilePath') : Option Content :=
  fs.files.lookup p

/-- Well-formed snapshot: files live under existing directories, no path is
both a file and a directory, and directories are closed under parents. -/
def FS.wf (fs : FS) : Prop :=
  (∀ pc ∈ fs.files, pc.1 ≠ [] ∧ fs.isDir pc.1.dropLast ∧ ¬ fs.isDir pc.1) ∧
  (∀ d ∈ fs.dirs, d ≠ [] → fs.isDir d.dropLast)

instance (fs : FS) : Decidable fs.wf := by
  unfold FS.wf; infer_instance

/-! ### String helpers: `str.lower()` and `pathlib.Path.suffix` -/

/-- Model of Python `str.lower()` on the ASCII range (the only characters the
program's category names, extensions and messages use). -/
def lowerChar : Char → Char
  | 'A' => 'a' | 'B' => 'b' | 'C' => 'c' | 'D' => 'd' | 'E' => 'e' | 'F' => 'f'
  | 'G' => 'g' | 'H' => 'h' | 'I' => 'i' | 'J' => 'j' | 'K' => 'k' | 'L' => 'l'
  | 'M' => 'm' | 'N' => 'n' | 'O' => 'o' | 'P' => 'p' | 'Q' => 'q' | 'R' => 'r'
  | 'S' => 's' | 'T' => 't' | 'U' => 'u' | 'V' => 'v' | 'W' => 'w' | 'X' => 'x'
  | 'Y' => 'y' | 'Z' => 'z' | c => c

/-- `s.lower()`. -/
def lowerStr (s : String) : String := String.mk (s.data.map lowerChar)

/-- Index of the last `'.'` in a character list (`str.rfind('.')`). -/
def rdotIdx : List Char → Option Nat
  | [] => none
  | c :: rest =>
    match rdotIdx rest with
    | some i => some (i + 1)
    | none => if c = '.' then some 0 else none

/-- `pathlib.PurePath.suffix` on a file name: the substring from the last dot,
provided the dot is neither the first nor the last character; else `""`. -/
def suffixOf (name : String) : String :=
  match rdotIdx name.data with
  | some i => if 0 < i && i + 1 < name.data.length then String.mk (name.data.drop i) else ""
  | none => ""

/-- `Path(p).name` — the final path component. -/
def pathName (p : FilePath') : String := p.getLastD ""

/-- `Path(file_path).suffix.lower()` as computed in `categorize_file`. -/
def pathSuffixLower (p : FilePath') : String := lowerStr (suffixOf (pathName p))

/-! ### Configuration (`load_config` validation) and categorization -/

/-- A validated override rule set: category names mapped, in definition order,
to their extension lists (as authored, `load_config` does not normalize them). -/
abbrev Config := List (String × List String)

/-- A parsed JSON value, as far as `load_config`'s validation inspects it. -/
inductive JVal where
  | jstr (s : String)
  | jlist (xs : List JVal)
  | jother
deriving Repr

/-- The validation loop of `load_config` (file_mover.py lines 104-129):
each category whose value is a list keeps exactly its string elements,
categories with no valid extension are dropped, and the whole result is
`none` when no category survives.  Extensions are kept verbatim. -/
def validateConfig (entries : List (String × JVal)) : Option Config :=
  let validated := entries.foldl
    (fun acc ce =>
      match ce.2 with
      | .jlist xs =>
        let valid := xs.filterMap (fun v => match v with | .jstr s => some s | _ => none)
        if valid.isEmpty then acc else acc ++ [(ce.1, valid)]
      | _ => acc) []
  if validated.isEmpty then none else some validated

/-- The built-in extension table of `categorize_file` (lines 345-392). -/
def builtinTable : List (String × String) :=
  [(".jpg", "images"), (".jpeg", "images"), (".png", "images"), (".gif", "images"),
   (".bmp", "images"), (".tiff", "images"), (".webp", "images"),
   (".pdf", "documents"), (".doc", "documents"), (".docx", "documents"),
   (".txt", "documents"), (".rtf", "documents"), (".odt", "documents"),
   (".xls", "documents"), (".xlsx", "documents"), (".ppt", "documents"),
   (".pptx", "documents"),
   (".mp4", "videos"), (".mov", "videos"), (".avi", "videos"), (".mkv", "videos"),
   (".wmv", "videos"), (".flv", "videos"), (".webm", "videos"),
   (".mp3", "music"), (".wav", "music"), (".flac", "music"), (".aac", "music"),
   (".zip", "archives"), (".rar", "archives"), (".tar", "archives"),
   (".gz", "archives"), (".7z", "archives"),
   (".py", "code"), (".java", "code"), (".cpp", "code"), (".js", "code"),
   (".ts", "code"), (".html", "code"), (".css", "code")]

/-- The config-scan loop of `categorize_file`: first category, in definition
order, whose extension list contains the (lowercased) suffix; its name is
returned lowercased.  Membership is literal (`suffix in extensions`). -/
def findCat : Config → String → Option String
  | [], _ => none
  | ce :: rest, suf => if ce.2.contains suf then some (lowerStr ce.1) else findCat rest suf

/-- `FileMover.categorize_file` (lines 285-394), with the `load_config()`
result passed explicitly as `cfg`. -/
def categorize_file (cfg : Option Config) (p : FilePath') : String :=
  let suf := pathSuffixLower p
  let fromCfg :=
    match cfg with
    | some rules => findCat rules suf
    | none => none
  match fromCfg with
  | some c => c
  | none => ((builtinTable.lookup suf).getD "others")

/-! ### Filesystem operations -/

/-- All prefixes of a path, from the root `[]` up to the path itself. -/
def prefixesOf (p : FilePath') : List FilePath' :=
  (List.range (p.length + 1)).map (fun n => p.take n)

/-- `path.mkdir(parents=True, exist_ok=True)`: a no-op when the directory
exists; otherwise creates every missing ancestor.  Returns `none` (an OSError)
when the path or one of its ancestors exists as a regular file. -/
def FS.mkdirParents (fs : FS) (p : FilePath') : Option FS :=
  if fs.isDir p then some fs
  else if (prefixesOf p).any (fun q => fs.isFile q) then none
  else some ⟨fs.files, fs.dirs ++ (prefixesOf p).filter (fun q => !(fs.isDir q))⟩

/-- `path.unlink()`: remove a regular file. -/
def FS.unlink (fs : FS) (p : FilePath') : FS :=
  ⟨fs.files.filter (fun pc => !(pc.1 == p)), fs.dirs⟩

/-- `shutil.rmtree(path)`: remove a directory and everything beneath it. -/
def FS.removeTree (fs : FS) (p : FilePath') : FS :=
  ⟨fs.files.filter (fun pc => !(p.isPrefixOf pc.1)),
   fs.dirs.filter (fun d => !(p.isPrefixOf d))⟩

/-- The destination-removal step shared by both move entry points
(`if dest.is_dir(): shutil.rmtree(dest) else: dest.unlink()`). -/
def FS.removePath (fs : FS) (p : FilePath') : FS :=
  if fs.isDir p then fs.removeTree p else fs.unlink p

/-- How a call ends: normal return, silent skip, or a raised exception. -/
inductive Outcome where
  | ok
  | skipped
  | fileExistsError
  | fileNotFoundError
  | permissionError
  | otherError
deriving Repr, DecidableEq

/-- `shutil.move(src, dst)` in the situations the code can reach (the
destination never exists at this point): raises `FileNotFoundError` when the
source is gone, else relocates the content. -/
def shutilMove (fs : FS) (src dst : FilePath') : Except Outcome FS :=
  match fs.files.lookup src with
  | none => .error .fileNotFoundError
  | some c => .ok ⟨(dst, c) :: fs.files.filter (fun pc => !(pc.1 == src)), fs.dirs⟩

/-! ### The two move entry points -/

/-- The `FileMover` object: its source folder and the ambient `load_config()`
result (the process-wide cache, passed explicitly in this model). -/
structure FileMover where
  source_folder : FilePath'
  loaded_config : Option Config

/-- `FileMover.categorize_file`. -/
def FileMover.categorize_file (m : FileMover) (p : FilePath') : String :=
  FileOrganizer.categorize_file m.loaded_config p

/-- `FileMover.move_file(file_path, category, overwrite)` (lines 396-500) on a
filesystem snapshot.  `file_path` is taken already absolute (the callers pass
absolute paths produced by `scan_directory`).  Returns the call's outcome
together with the filesystem afterwards. -/
def FileMover.move_file (m : FileMover) (fs : FS) (file_path : FilePath')
    (category : Option String) (overwrite : Bool) : Outcome × FS :=
  if fs.isFile file_path then
    let destination_category := category.getD (m.categorize_file file_path)
    let destination_dir := m.source_folder ++ [destination_category]
    match fs.mkdirParents destination_dir with
    | none => (.otherError, fs)
    | some fs1 =>
      let destination_path := destination_dir ++ [pathName file_path]
      if fs1.pathExists destination_path && !overwrite then
        (.fileExistsError, fs1)
      else
        let fs2 := if fs1.pathExists destination_path
                   then fs1.removePath destination_path else fs1
        match shutilMove fs2 file_path destination_path with
        | .ok fs3 => (.ok, fs3)
        | .error e => (e, fs2)
  else
    (.skipped, fs)

/-- An injected failure of one `shutil.move` attempt, modelling the transient
lock errors the standalone primitive retries on. -/
inductive MoveFault where
  | permission
  | other
deriving Repr, DecidableEq

/-- A fault schedule: what attempt `i` of `shutil.move` does (`none` = the
real move is performed). -/
abbrev Faults := Nat → Option MoveFault

/-- The schedule with no injected faults: plain filesystem semantics. -/
def noFaults : Faults := fun _ => none

/-- `time.sleep(0.5)` — the fixed backoff between retries, in milliseconds. -/
def backoff : Nat := 500

/-- The retry loop of the standalone `move_file` (lines 651-670):
`for attempt in range(max_retries + 1)`.  `retriesLeft` is
`max_retries - attempt`.  Returns the outcome and filesystem, the number of
`shutil.move` attempts performed, and the list of sleeps taken. -/
def retryMove (faults : Faults) (src dst : FilePath') (fs : FS) :
    Nat → Nat → (Outcome × FS) × Nat × List Nat
  | attempt, retriesLeft =>
    match faults attempt, retriesLeft with
    | some .permission, 0 => ((.permissionError, fs), 1, [])
    | some .permission, r + 1 =>
      let res := retryMove faults src dst fs (attempt + 1) r
      (res.1, res.2.1 + 1, backoff :: res.2.2)
    | some .other, _ => ((.otherError, fs), 1, [])
    | none, _ =>
      match shutilMove fs src dst with
      | .ok fs' => ((.ok, fs'), 1, [])
      | .error e => ((e, fs), 1, [])

/-- The standalone `move_file(source, destination, overwrite, max_retries)`
primitive (lines 604-670), with a fault schedule for the `shutil.move`
attempts.  Returns outcome and filesystem, attempts made, sleeps taken. -/
def move_file (faults : Faults) (fs : FS) (source destination : FilePath')
    (overwrite : Bool) (max_retries : Nat) : (Outcome × FS) × Nat × List Nat :=
  if fs.isFile source then
    match fs.mkdirParents destination.dropLast with
    | none => ((.otherError, fs), 0, [])
    | some fs1 =>
      if fs1.pathExists destination && !overwrite then
        ((.fileExistsError, fs1), 0, [])
      else
        let fs2 := if fs1.pathExists destination
                   then fs1.removePath destination else fs1
        retryMove faults source destination fs2 0 max_retries
  else
    ((.fileNotFoundError, fs), 0, [])

/-! ### Scanning and orchestration -/

/-- `FileMover.scan_directory` (lines 217-283): every regular file strictly
below `base`, in snapshot order; empty when `base` is not an existing
directory. -/
def FileMover.scan_directory (fs : FS) (base : FilePath') : List FilePath' :=
  if fs.isDir base then
    (fs.files.filter (fun pc => base.isPrefixOf pc.1 && !(pc.1 == base))).map (·.1)
  else
    []

/-- One per-file log line / decision recorded by `organize`. -/
inductive Decision where
  | wouldMove (src dst : FilePath')
  | wouldSkip (src dst : FilePath')
  | processed (src : FilePath')
  | failedCaught (src : FilePath') (e : Outcome)
  | summaryDry
  | summaryReal
deriving Repr, DecidableEq

/-- Whether an outcome is a raised exception (caught by `organize`'s
per-file `except` clause). -/
def Outcome.isError : Outcome → Bool
  | .ok => false
  | .skipped => false
  | _ => true

/-- The body of `organize`'s per-file loop (lines 568-595). -/
def FileMover.organizeStep (m : FileMover) (dry_run overwrite : Bool)
    (fs : FS) (file_path : FilePath') : FS × Decision :=
  let category := m.categorize_file file_path
  if dry_run then
    let destination_path := m.source_folder ++ [category, pathName file_path]
    if fs.pathExists destination_path && !overwrite then
      (fs, .wouldSkip file_path destination_path)
    else
      (fs, .wouldMove file_path destination_path)
  else
    let (out, fs') := m.move_file fs file_path (some category) overwrite
    if out.isError then (fs', .failedCaught file_path out) else (fs', .processed file_path)

/-- `organize`'s loop over the scanned file list. -/
def FileMover.organizeLoop (m : FileMover) (dry_run overwrite : Bool) :
    FS → List FilePath' → FS × List Decision
  | fs, [] => (fs, [])
  | fs, f :: rest =>
    let (fs1, d) := m.organizeStep dry_run overwrite fs f
    let (fs2, ds) := m.organizeLoop dry_run overwrite fs1 rest
    (fs2, d :: ds)

/-- `FileMover.organize(dry_run, overwrite)` (lines 502-601): scan, process
each file, then emit the completion summary. -/
def FileMover.organize (m : FileMover) (fs : FS) (dry_run overwrite : Bool) :
    FS × List Decision :=
  let files := FileMover.scan_directory fs m.source_folder
  let (fs', ds) := m.organizeLoop dry_run overwrite fs files
  (fs', ds ++ [if dry_run then .summaryDry else .summaryReal])

/-! ## Helper lemmas -/

section Lemmas

theorem lowerChar_cases (c : Char) :
    lowerChar c = c ∨ lowerChar c ∈
      ['a','b','c','d','e','f','g','h','i','j','k','l','m',
       'n','o','p','q','r','s','t','u','v','w','x','y','z'] := by
  unfold lowerChar
  split <;> first | (left; rfl) | (right; decide)

theorem lowerChar_idem (c : Char) : lowerChar (lowerChar c) = lowerChar c := by
  rcases lowerChar_cases c with h | h
  · rw [h]; exact h
  · revert h
    have : ∀ c' ∈ ['a','b','c','d','e','f','g','h','i','j','k','l','m',
       'n','o','p','q','r','s','t','u','v','w','x','y','z'], lowerChar c' = c' := by decide
    intro h
    exact this _ h

theorem lowerStr_idem (s : String) : lowerStr (lowerStr s) = lowerStr s := by
  unfold lowerStr
  simp only [List.map_map]
  exact congrArg String.mk (List.map_congr_left fun c _ => lowerChar_idem c)

theorem lowerStr_ne_empty {s : String} (h : s ≠ "") : lowerStr s ≠ "" := by
  intro hcontra
  have hdata := congrArg String.data hcontra
  cases s with
  | mk d =>
    cases d with
    | nil => exact h rfl
    | cons c cs => simp [lowerStr] at hdata

theorem mem_of_lookup_eq_some {α β : Type} [BEq α] [LawfulBEq α]
    {l : List (α × β)} {k : α} {v : β} (h : l.lookup k = some v) : (k, v) ∈ l := by
  induction l with
  | nil => simp [List.lookup] at h
  | cons p rest ih =>
    rcases p with ⟨a, b⟩
    rw [List.lookup_cons] at h
    cases hk : k == a with
    | true =>
      simp only [hk] at h
      cases h
      have hka : k = a := by simpa using hk
      subst hka
      exact List.mem_cons_self _ _
    | false =>
      simp only [hk] at h
      exact List.mem_cons_of_mem _ (ih h)

/-- If every pair with key `k` passes the filter, lookups of `k` are
unchanged by the filter. -/
theorem lookup_filter_keep {α β : Type} [BEq α] [LawfulBEq α]
    (l : List (α × β)) (f : α × β → Bool) (k : α)
    (hf : ∀ v, f (k, v) = true) : (l.filter f).lookup k = l.lookup k := by
  induction l with
  | nil => rfl
  | cons p rest ih =>
    rcases p with ⟨a, b⟩
    rw [List.filter_cons]
    by_cases hk : k = a
    · subst hk
      rw [hf b]
      simp [List.lookup_cons, ih]
    · have hbeq : (k == a) = false := by simpa using hk
      cases hfa : f (a, b) with
      | true => simp [List.lookup_cons, hbeq, ih]
      | false => simp [List.lookup_cons, hbeq, ih]

/-- If every pair with key `k` is dropped by the filter, `k` is absent from
the filtered list. -/
theorem lookup_filter_drop {α β : Type} [BEq α] [LawfulBEq α]
    (l : List (α × β)) (f : α × β → Bool) (k : α)
    (hf : ∀ v, f (k, v) = false) : (l.filter f).lookup k = none := by
  induction l with
  | nil => rfl
  | cons p rest ih =>
    rcases p with ⟨a, b⟩
    rw [List.filter_cons]
    by_cases hk : k = a
    · subst hk
      rw [hf b]
      simpa using ih
    · have hbeq : (k == a) = false := by simpa using hk
      cases hfa : f (a, b) with
      | true => simp [List.lookup_cons, hbeq, ih]
      | false => simp [List.lookup_cons, hbeq, ih]

theorem isFile_exists_content {fs : FS} {p : FilePath'} (h : fs.isFile p) :
    ∃ c, fs.files.lookup p = some c := by
  unfold FS.isFile at h
  exact Option.isSome_iff_exists.mp h

theorem wf_file_ne_nil {fs : FS} {p : FilePath'} (hwf : fs.wf) (h : fs.isFile p) :
    p ≠ [] := by
  obtain ⟨c, hc⟩ := isFile_exists_content h
  exact (hwf.1 _ (mem_of_lookup_eq_some hc)).1

theorem wf_file_parent_dir {fs : FS} {p : FilePath'} (hwf : fs.wf) (h : fs.isFile p) :
    fs.isDir p.dropLast := by
  obtain ⟨c, hc⟩ := isFile_exists_content h
  exact (hwf.1 _ (mem_of_lookup_eq_some hc)).2.1

theorem wf_file_not_dir {fs : FS} {p : FilePath'} (hwf : fs.wf) (h : fs.isFile p) :
    fs.isDir p = false := by
  obtain ⟨c, hc⟩ := isFile_exists_content h
  have := (hwf.1 _ (mem_of_lookup_eq_some hc)).2.2
  simpa using this

theorem wf_dir_parent_dir {fs : FS} {d : FilePath'} (hwf : fs.wf) (h : fs.isDir d)
    (hne : d ≠ []) : fs.isDir d.dropLast := by
  unfold FS.isDir at h
  exact hwf.2 _ (by simpa using h) hne

/-- Whenever `p ++ [a]` exists in a well-formed snapshot, `p` is a directory
(so `mkdir(parents=True, exist_ok=True)` on `p` is a no-op). -/
theorem wf_parent_dir_of_exists {fs : FS} {p : FilePath'} {a : String}
    (hwf : fs.wf) (h : fs.pathExists (p ++ [a])) : fs.isDir p := by
  unfold FS.pathExists at h
  rcases Bool.or_eq_true_iff.mp h with hf | hd
  · have := wf_file_parent_dir hwf hf
    rwa [List.dropLast_concat] at this
  · have := wf_dir_parent_dir hwf hd (by simp)
    rwa [List.dropLast_concat] at this

theorem mkdirParents_of_isDir {fs : FS} {p : FilePath'} (h : fs.isDir p) :
    fs.mkdirParents p = some fs := by
  unfold FS.mkdirParents
  rw [if_pos h]

/-- Removing the destination does not disturb the lookup of any path the
destination is not a prefix of. -/
theorem removePath_lookup_keep {fs : FS} {q p : FilePath'} (h : ¬ q <+: p) :
    (fs.removePath q).files.lookup p = fs.files.lookup p := by
  unfold FS.removePath FS.removeTree FS.unlink
  have hne : p ≠ q := by
    intro hc; subst hc; exact h (List.prefix_refl p)
  split
  · exact lookup_filter_keep _ _ _ (fun v => by
      have hpf : List.isPrefixOf q p = false := by
        rw [Bool.eq_false_iff]
        intro hc
        exact h (List.isPrefixOf_iff_prefix.mp hc)
      simp [hpf])
  · exact lookup_filter_keep _ _ _ (fun v => by simp [hne])

theorem removePath_dirs_unlink {fs : FS} {q : FilePath'} (h : fs.isDir q = false) :
    fs.removePath q = fs.unlink q := by
  unfold FS.removePath
  rw [h]
  simp

/-- `FileMover.move_file`, conflict path: destination exists, `overwrite`
false — raises `FileExistsError`, filesystem untouched. -/
theorem fileMover_move_conflict (m : FileMover) (fs : FS) (file : FilePath')
    (category : Option String) (hwf : fs.wf) (hfile : fs.isFile file)
    (hex : fs.pathExists
      (m.source_folder ++ [category.getD (m.categorize_file file)] ++ [pathName file])) :
    m.move_file fs file category false = (.fileExistsError, fs) := by
  unfold FileMover.move_file
  rw [if_pos hfile]
  have hdir : fs.isDir (m.source_folder ++ [category.getD (m.categorize_file file)]) :=
    wf_parent_dir_of_exists hwf hex
  simp only [mkdirParents_of_isDir hdir, hex, Bool.not_false, Bool.and_true, if_pos]

/-- Any existing path of a well-formed snapshot has a directory as parent. -/
theorem wf_exists_parent_dir {fs : FS} {p : FilePath'} (hwf : fs.wf)
    (h : fs.pathExists p) : fs.isDir p.dropLast := by
  unfold FS.pathExists at h
  rcases Bool.or_eq_true_iff.mp h with hf | hd
  · exact wf_file_parent_dir hwf hf
  · by_cases hnil : p = []
    · subst hnil; simpa using hd
    · exact wf_dir_parent_dir hwf hd hnil

/-- Standalone `move_file`, conflict path: destination exists, `overwrite`
false — raises `FileExistsError` before any attempt, filesystem untouched. -/
theorem standalone_move_conflict (faults : Faults) (fs : FS) (src dst : FilePath')
    (max_retries : Nat) (hwf : fs.wf) (hsrc : fs.isFile src)
    (hex : fs.pathExists dst) :
    move_file faults fs src dst false max_retries = ((.fileExistsError, fs), 0, []) := by
  unfold move_file
  rw [if_pos hsrc]
  have hdir : fs.isDir dst.dropLast := wf_exists_parent_dir hwf hex
  simp only [mkdirParents_of_isDir hdir, hex, Bool.not_false, Bool.and_true, if_pos]

/-- The result of a successful `shutil.move` on a lookup of the source:
the moved file is gone. -/
theorem moved_src_gone {l : List (FilePath' × Content)} {src dst : FilePath'}
    {c : Content} (hne : dst ≠ src) :
    (((dst, c) :: l.filter (fun pc => !(pc.1 == src))).lookup src) = none := by
  rw [List.lookup_cons]
  have hbeq : (src == dst) = false := by simpa using fun h => hne h.symm
  simp only [hbeq]
  exact lookup_filter_drop _ _ _ (fun v => by simp)

/-- `FileMover.move_file`, overwrite path: destination exists (and is not the
source nor a directory above it), `overwrite` true — the move succeeds, the
source is gone, the destination holds the source's old content. -/
theorem fileMover_move_overwrite (m : FileMover) (fs : FS) (file : FilePath')
    (category : Option String) (hwf : fs.wf) (hfile : fs.isFile file)
    (hex : fs.pathExists
      (m.source_folder ++ [category.getD (m.categorize_file file)] ++ [pathName file]))
    (hnp : ¬ (m.source_folder ++ [category.getD (m.categorize_file file)] ++ [pathName file])
            <+: file) :
    (m.move_file fs file category true).1 = .ok ∧
    (m.move_file fs file category true).2.isFile file = false ∧
    (m.move_file fs file category true).2.readFile
      (m.source_folder ++ [category.getD (m.categorize_file file)] ++ [pathName file])
      = fs.readFile file := by
  set dest := m.source_folder ++ [category.getD (m.categorize_file file)] ++ [pathName file]
    with hdest
  obtain ⟨c, hc⟩ := isFile_exists_content hfile
  have hdir : fs.isDir (m.source_folder ++ [category.getD (m.categorize_file file)]) :=
    wf_parent_dir_of_exists hwf hex
  have hlk2 : (fs.removePath dest).files.lookup file = some c := by
    rw [removePath_lookup_keep hnp]; exact hc
  have hne : dest ≠ file := fun h => hnp (h ▸ List.prefix_refl dest)
  have heq : m.move_file fs file category true =
      (.ok, ⟨(dest, c) :: (fs.removePath dest).files.filter (fun pc => !(pc.1 == file)),
             (fs.removePath dest).dirs⟩) := by
    unfold FileMover.move_file
    rw [if_pos hfile]
    simp only [← hdest, mkdirParents_of_isDir hdir, hex, Bool.not_true, Bool.and_false,
      if_neg, if_pos, Bool.false_eq_true, if_false, if_true, shutilMove, hlk2]
  refine ⟨by rw [heq], ?_, ?_⟩
  · rw [heq]
    unfold FS.isFile
    rw [moved_src_gone hne]
    rfl
  · rw [heq]
    unfold FS.readFile
    rw [List.lookup_cons]
    simp only [beq_self_eq_true]
    rw [hc]

/-- Standalone `move_file`, overwrite path with no injected faults:
destination exists (and is not the source nor a directory above it),
`overwrite` true — one successful move attempt, no sleeps, source gone,
destination holds the source's old content. -/
theorem standalone_move_overwrite (fs : FS) (src dst : FilePath') (max_retries : Nat)
    (hwf : fs.wf) (hsrc : fs.isFile src) (hex : fs.pathExists dst)
    (hnp : ¬ dst <+: src) :
    (move_file noFaults fs src dst true max_retries).1.1 = .ok ∧
    (move_file noFaults fs src dst true max_retries).1.2.isFile src = false ∧
    (move_file noFaults fs src dst true max_retries).1.2.readFile dst = fs.readFile src ∧
    (move_file noFaults fs src dst true max_retries).2 = (1, []) := by
  obtain ⟨c, hc⟩ := isFile_exists_content hsrc
  have hdir : fs.isDir dst.dropLast := wf_exists_parent_dir hwf hex
  have hlk2 : (fs.removePath dst).files.lookup src = some c := by
    rw [removePath_lookup_keep hnp]; exact hc
  have hne : dst ≠ src := fun h => hnp (h ▸ List.prefix_refl dst)
  have heq : move_file noFaults fs src dst true max_retries =
      ((.ok, ⟨(dst, c) :: (fs.removePath dst).files.filter (fun pc => !(pc.1 == src)),
              (fs.removePath dst).dirs⟩), 1, []) := by
    unfold move_file
    rw [if_pos hsrc]
    simp only [mkdirParents_of_isDir hdir, hex, Bool.not_true, Bool.and_false,
      Bool.false_eq_true, if_false, if_true, retryMove, noFaults, shutilMove, hlk2]
  refine ⟨by rw [heq], ?_, ?_, by rw [heq]⟩
  · rw [heq]
    unfold FS.isFile
    rw [moved_src_gone hne]
    rfl
  · rw [heq]
    unfold FS.readFile
    rw [List.lookup_cons]
    simp only [beq_self_eq_true]
    rw [hc]

/-- `FileMover.move_file` on a file that already sits at its computed
destination, with `overwrite = true`: the "existing destination" that gets
removed is the source itself, so the subsequent `shutil.move` raises
`FileNotFoundError` and the file is lost. -/
theorem fileMover_move_self_dest (m : FileMover) (fs : FS) (file : FilePath')
    (category : Option String) (hwf : fs.wf) (hfile : fs.isFile file)
    (hself : file =
      m.source_folder ++ [category.getD (m.categorize_file file)] ++ [pathName file]) :
    m.move_file fs file category true = (.fileNotFoundError, fs.unlink file) := by
  have hdir : fs.isDir (m.source_folder ++ [category.getD (m.categorize_file file)]) := by
    have h1 := wf_file_parent_dir hwf hfile
    rw [hself, List.dropLast_concat] at h1
    exact h1
  have hex : fs.pathExists
      (m.source_folder ++ [category.getD (m.categorize_file file)] ++ [pathName file]) := by
    rw [← hself]
    unfold FS.pathExists
    simp [hfile]
  have hrm : fs.removePath file = fs.unlink file :=
    removePath_dirs_unlink (wf_file_not_dir hwf hfile)
  have hgone : (fs.unlink file).files.lookup file = none := by
    unfold FS.unlink
    exact lookup_filter_drop _ _ _ (fun v => by simp)
  have hexf : fs.pathExists file = true := by
    unfold FS.pathExists
    simp [hfile]
  unfold FileMover.move_file
  rw [if_pos hfile]
  simp only [mkdirParents_of_isDir hdir, hex, Bool.not_true, Bool.and_false,
    Bool.false_eq_true, if_false, if_true, ← hself, hexf, hrm, shutilMove, hgone]

/-- `scan_directory` lists every file strictly below the scanned root. -/
theorem mem_scan_directory {fs : FS} {root p : FilePath'} {c : Content}
    (hm : (p, c) ∈ fs.files) (hpre : root <+: p) (hne : p ≠ root)
    (hdir : fs.isDir root) : p ∈ FileMover.scan_directory fs root := by
  unfold FileMover.scan_directory
  rw [if_pos hdir]
  refine List.mem_map.mpr ⟨(p, c), List.mem_filter.mpr ⟨hm, ?_⟩, rfl⟩
  have h1 : root.isPrefixOf p = true := List.isPrefixOf_iff_prefix.mpr hpre
  have h2 : (p == root) = false := by simpa using hne
  simp [h1, h2]

/-- Retry loop under a permanent lock: every attempt is taken, every gap
sleeps `backoff`, and the `PermissionError` is re-raised at exhaustion. -/
theorem retryMove_all_perm (faults : Faults) (src dst : FilePath') (fs : FS)
    (hp : ∀ i, faults i = some .permission) :
    ∀ retriesLeft attempt, retryMove faults src dst fs attempt retriesLeft =
      ((.permissionError, fs), retriesLeft + 1, List.replicate retriesLeft backoff) := by
  intro retriesLeft
  induction retriesLeft with
  | zero => intro attempt; simp [retryMove, hp attempt]
  | succ r ih =>
    intro attempt
    simp only [retryMove, hp attempt, ih (attempt + 1), List.replicate_succ]

/-- Retry loop when the first `k` attempts hit a lock and attempt `k`
runs the real move: `k + 1` attempts, `k` sleeps. -/
theorem retryMove_k_perm (faults : Faults) (src dst : FilePath') (fs : FS) :
    ∀ (k attempt retriesLeft : Nat), k ≤ retriesLeft →
      (∀ i, i < k → faults (attempt + i) = some .permission) →
      faults (attempt + k) = none →
      retryMove faults src dst fs attempt retriesLeft =
        ((match shutilMove fs src dst with
          | .ok fs' => (Outcome.ok, fs')
          | .error e => (e, fs)), k + 1, List.replicate k backoff) := by
  intro k
  induction k with
  | zero =>
    intro attempt retriesLeft _ _ h0
    rw [Nat.add_zero] at h0
    cases retriesLeft <;>
      (simp only [retryMove, h0, List.replicate]
       cases hmv : shutilMove fs src dst <;> simp [hmv])
  | succ k ih =>
    intro attempt retriesLeft hle hperm hnone
    have h0 : faults attempt = some .permission := by
      have := hperm 0 (Nat.succ_pos k)
      simpa using this
    cases retriesLeft with
    | zero => omega
    | succ r =>
      have hrec := ih (attempt + 1) r (by omega)
        (fun i hi => by
          have := hperm (i + 1) (by omega)
          rwa [show attempt + (i + 1) = attempt + 1 + i by omega] at this)
        (by rwa [show attempt + 1 + k = attempt + (k + 1) by omega])
      simp only [retryMove, h0, hrec, List.replicate_succ]

/-- Standalone `move_file` reaches its retry loop untouched when the source
exists, the destination is absent and its parent directory present. -/
theorem standalone_move_reaches_retry (faults : Faults) (fs : FS)
    (src dst : FilePath') (overwrite : Bool) (max_retries : Nat)
    (hsrc : fs.isFile src) (hdir : fs.isDir dst.dropLast)
    (hnex : fs.pathExists dst = false) :
    move_file faults fs src dst overwrite max_retries =
      retryMove faults src dst fs 0 max_retries := by
  unfold move_file
  rw [if_pos hsrc]
  simp only [mkdirParents_of_isDir hdir, hnex, Bool.false_and, Bool.false_eq_true,
    if_false]

/-- A config scan hit determines `categorize_file`'s result. -/
theorem categorize_file_of_findCat {rules : Config} {p : FilePath'} {cat : String}
    (h : findCat rules (pathSuffixLower p) = some cat) :
    categorize_file (some rules) p = cat := by
  unfold categorize_file
  simp only [h]

/-- A config scan miss sends `categorize_file` to the built-in table. -/
theorem categorize_file_of_findCat_none {cfg : Option Config} {p : FilePath'}
    (h : findCat (cfg.getD []) (pathSuffixLower p) = none) :
    categorize_file cfg p = (builtinTable.lookup (pathSuffixLower p)).getD "others" := by
  unfold categorize_file
  cases cfg with
  | none => simp
  | some rules => simp only [Option.getD] at h; simp only [h]

/-- `findCat` returns the first matching category, by index. -/
theorem findCat_first_match (suf : String) :
    ∀ (rules : Config) (i : Nat) (hi : i < rules.length),
      ((rules.get ⟨i, hi⟩).2.contains suf) = true →
      (∀ j (hj : j < i), ((rules.get ⟨j, Nat.lt_trans hj hi⟩).2.contains suf) = false) →
      findCat rules suf = some (lowerStr (rules.get ⟨i, hi⟩).1) := by
  intro rules
  induction rules with
  | nil => intro i hi; simp at hi
  | cons ce rest ih =>
    intro i hi hhit hmiss
    cases i with
    | zero =>
      rw [findCat]
      simp only [List.get] at hhit
      rw [hhit]
      rfl
    | succ i' =>
      have hmiss0 : (ce.2.contains suf) = false := by
        have := hmiss 0 (Nat.succ_pos i')
        simpa using this
      rw [findCat, hmiss0]
      simp only [Bool.false_eq_true, if_false]
      exact ih i' (Nat.lt_of_succ_lt_succ hi) hhit
        (fun j hj => by
          have := hmiss (j + 1) (Nat.succ_lt_succ hj)
          simpa using this)

/-- Every value `findCat` can return is a lowercased category of the rule
set. -/
theorem findCat_some_mem {rules : Config} {suf cat : String}
    (h : findCat rules suf = some cat) : ∃ ce ∈ rules, cat = lowerStr ce.1 := by
  induction rules with
  | nil => simp [findCat] at h
  | cons ce rest ih =>
    rw [findCat] at h
    by_cases hc : (ce.2.contains suf) = true
    · rw [hc] at h
      simp only [if_true] at h
      cases h
      exact ⟨ce, List.mem_cons_self _ _, rfl⟩
    · rw [Bool.not_eq_true] at hc
      rw [hc] at h
      simp only [Bool.false_eq_true, if_false] at h
      obtain ⟨ce', hmem, hcat⟩ := ih h
      exact ⟨ce', List.mem_cons_of_mem _ hmem, hcat⟩

/-- A dry-run step never touches the filesystem. -/
theorem organizeStep_dry_fs (m : FileMover) (ow : Bool) (fs : FS) (f : FilePath') :
    (m.organizeStep true ow fs f).1 = fs := by
  unfold FileMover.organizeStep
  simp only [if_true]
  split <;> rfl

/-- A dry-run loop never touches the filesystem. -/
theorem organizeLoop_dry_fs (m : FileMover) (ow : Bool) :
    ∀ (files : List FilePath') (fs : FS), (m.organizeLoop true ow fs files).1 = fs := by
  intro files
  induction files with
  | nil => intro fs; rfl
  | cons f rest ih =>
    intro fs
    rw [FileMover.organizeLoop]
    cases hstep : m.organizeStep true ow fs f with
    | mk fs1 d =>
      have hfs1 : fs1 = fs := by
        have h := organizeStep_dry_fs m ow fs f
        rw [hstep] at h
        exact h
      subst hfs1
      cases hloop : m.organizeLoop true ow fs1 rest with
      | mk fs2 ds =>
        have hfs2 : fs2 = fs1 := by
          have h := ih fs1
          rw [hloop] at h
          exact h
        simp [hstep, hloop, hfs2]

/-- The per-file loop emits exactly one decision per scanned file, whatever
the per-file outcomes are. -/
theorem organizeLoop_length (m : FileMover) (dry ow : Bool) :
    ∀ (files : List FilePath') (fs : FS),
      (m.organizeLoop dry ow fs files).2.length = files.length := by
  intro files
  induction files with
  | nil => intro fs; rfl
  | cons f rest ih =>
    intro fs
    rw [FileMover.organizeLoop]
    cases hstep : m.organizeStep dry ow fs f with
    | mk fs1 d =>
      cases hloop : m.organizeLoop dry ow fs1 rest with
      | mk fs2 ds =>
        have h := ih fs1
        rw [hloop] at h
        simp [hstep, hloop, h]

end Lemmas

section MoreLemmas

/-- `categorize_file` either returns a config hit or falls through to the
built-in table with the `"others"` default. -/
theorem categorize_file_cases (cfg : Option Config) (p : FilePath') :
    (∃ cat, findCat (cfg.getD []) (pathSuffixLower p) = some cat ∧
      categorize_file cfg p = cat) ∨
    (findCat (cfg.getD []) (pathSuffixLower p) = none ∧
      categorize_file cfg p = (builtinTable.lookup (pathSuffixLower p)).getD "others") := by
  unfold categorize_file
  cases cfg with
  | none => right; exact ⟨rfl, rfl⟩
  | some rules =>
    cases hfc : findCat rules (pathSuffixLower p) with
    | none =>
      right
      constructor
      · simpa using hfc
      · simp only [hfc]
    | some cat =>
      left
      exact ⟨cat, by simpa using hfc, by simp only [hfc]⟩

/-- Every built-in category value is a non-empty lowercase identifier. -/
theorem builtin_values_ok : ∀ kv ∈ builtinTable, kv.2 ≠ "" ∧ lowerStr kv.2 = kv.2 := by
  decide

end MoreLemmas

/-! ## Claims -/

/-- Claim C3 (code evaluation at the failing input): the claim says override
extension matching is case-insensitive with extensions normalized to
lowercase at load time, but `load_config` keeps `".JPG"` verbatim and
`categorize_file` tests literal membership of the lowercased file suffix, so
a config `{"Special": [".JPG"]}` never matches `x.jpg` — the built-in
`"images"` wins instead of `"special"`. -/
theorem claim_C3_config_case_eval :
    validateConfig [("Special", .jlist [.jstr ".JPG"])] = some [("Special", [".JPG"])] ∧
    categorize_file (some [("Special", [".JPG"])]) ["x.jpg"] = "images" ∧
    categorize_file (some [("Special", [".JPG"])]) ["x.jpg"] ≠ "special" := by
  decide

/-- Claim C5 (counterexample): `categorize_file` can return the empty string,
contradicting "always returns a non-empty identifier" — `load_config` accepts
a category whose name is the empty string, and a file matching it is
categorized as `""`. -/
theorem claim_C5_counterexample :
    validateConfig [("", .jlist [.jstr ".xyz"])] = some [("", [".xyz"])] ∧
    categorize_file (some [("", [".xyz"])]) ["a.xyz"] = "" := by
  decide

/-- Claim C5 (amended): `categorize_file` never fails and always returns an
all-lowercase string, which is non-empty whenever every loaded override
category name is non-empty (in particular whenever no override is loaded);
when no override matches, an extension that equals a built-in table entry
(after lowercasing) maps to that entry's category — so matching against the
built-in table is case-insensitive — and an extension absent from both
tables maps to `"others"`. -/
theorem claim_C5_total_lowercase :
    (∀ (cfg : Option Config) (p : FilePath'),
      ((∀ ce ∈ cfg.getD [], ce.1 ≠ "") → categorize_file cfg p ≠ "") ∧
      lowerStr (categorize_file cfg p) = categorize_file cfg p ∧
      (∀ cat, findCat (cfg.getD []) (pathSuffixLower p) = none →
        builtinTable.lookup (pathSuffixLower p) = some cat →
        categorize_file cfg p = cat) ∧
      (findCat (cfg.getD []) (pathSuffixLower p) = none →
        builtinTable.lookup (pathSuffixLower p) = none →
        categorize_file cfg p = "others")) ∧
    categorize_file none ["a.JPG"] = "images" ∧
    categorize_file none ["a.jpg"] = "images" := by
  refine ⟨?_, by decide, by decide⟩
  intro cfg p
  rcases categorize_file_cases cfg p with ⟨cat, hfc, hres⟩ | ⟨hfc, hres⟩
  · obtain ⟨ce, hmem, hcat⟩ := findCat_some_mem hfc
    refine ⟨?_, ?_, ?_, ?_⟩
    · intro hne
      rw [hres, hcat]
      exact lowerStr_ne_empty (hne ce hmem)
    · rw [hres, hcat]
      exact lowerStr_idem ce.1
    · intro cat' hnone hlk
      rw [hnone] at hfc
      cases hfc
    · intro hnone hlk
      rw [hnone] at hfc
      cases hfc
  · refine ⟨?_, ?_, ?_, ?_⟩
    · intro hne
      rw [hres]
      cases hlk : builtinTable.lookup (pathSuffixLower p) with
      | none => decide
      | some v =>
        have hv := (builtin_values_ok _ (mem_of_lookup_eq_some hlk)).1
        simpa using hv
    · rw [hres]
      cases hlk : builtinTable.lookup (pathSuffixLower p) with
      | none => decide
      | some v =>
        have hv := (builtin_values_ok _ (mem_of_lookup_eq_some hlk)).2
        simpa using hv
    · intro cat' hnone hlk
      rw [hres, hlk]
      rfl
    · intro hnone hlk
      rw [hres, hlk]
      rfl

theorem claim_C5_total_lowercase_witness :
    categorize_file (some [("Docs", [".txt"])]) ["r", "notes.txt"] ≠ "" ∧
    lowerStr (categorize_file (some [("Docs", [".txt"])]) ["r", "notes.txt"])
      = categorize_file (some [("Docs", [".txt"])]) ["r", "notes.txt"] ∧
    categorize_file (some [("Docs", [".pdf"])]) ["a.JPG"] = "images" ∧
    categorize_file (some [("Docs", [".pdf"])]) ["mystery.unknown"] = "others" := by
  refine ⟨?_, ?_, ?_, ?_⟩
  · exact ((claim_C5_total_lowercase.1 (some [("Docs", [".txt"])]) ["r", "notes.txt"]).1
      (by decide))
  · exact (claim_C5_total_lowercase.1 (some [("Docs", [".txt"])]) ["r", "notes.txt"]).2.1
  · exact ((claim_C5_total_lowercase.1 (some [("Docs", [".pdf"])]) ["a.JPG"]).2.2.1
      "images" (by decide) (by decide))
  · exact ((claim_C5_total_lowercase.1 (some [("Docs", [".pdf"])]) ["mystery.unknown"]).2.2.2
      (by decide) (by decide))

/-- Claim C6: override rules take precedence over the built-in table and are
scanned in definition order with first match winning — a rule set mapping
`.jpg` to `special` makes `categorize_file "x.jpg"` return `"special"`, not
the built-in `"images"`; in general the first category whose extension list
contains the file's (lowercased) extension is returned, lowercased, before
the built-in table is consulted. -/
theorem claim_C6_override_precedence :
    categorize_file (some [("special", [".jpg"])]) ["x.jpg"] = "special" ∧
    (∀ (rules : Config) (p : FilePath') (i : Nat) (hi : i < rules.length),
      ((rules.get ⟨i, hi⟩).2.contains (pathSuffixLower p)) = true →
      (∀ j (hj : j < i),
        ((rules.get ⟨j, Nat.lt_trans hj hi⟩).2.contains (pathSuffixLower p)) = false) →
      categorize_file (some rules) p = lowerStr (rules.get ⟨i, hi⟩).1) :=
  ⟨by decide,
   fun rules p i hi hhit hmiss =>
     categorize_file_of_findCat (findCat_first_match _ rules i hi hhit hmiss)⟩

theorem claim_C6_override_precedence_witness :
    categorize_file (some [("Docs", [".txt"]), ("Special", [".jpg"]), ("Late", [".jpg"])])
      ["x.jpg"] = "special" := by
  have hi : (1 : Nat) <
      ([("Docs", [".txt"]), ("Special", [".jpg"]), ("Late", [".jpg"])] : Config).length := by
    decide
  have h := claim_C6_override_precedence.2
    [("Docs", [".txt"]), ("Special", [".jpg"]), ("Late", [".jpg"])] ["x.jpg"] 1 hi
    (by rfl)
    (fun j hj => by
      have hj0 : j = 0 := by omega
      subst hj0
      rfl)
  rw [h]
  rfl

/-- Claim C7: `organize(dry_run=true)` never mutates the filesystem in any
branch, and running it twice in succession leaves the filesystem identical
and produces the same per-file log decisions both times. -/
theorem claim_C7_dry_run_no_mutation :
    ∀ (m : FileMover) (fs : FS) (overwrite : Bool),
      (m.organize fs true overwrite).1 = fs ∧
      m.organize ((m.organize fs true overwrite).1) true overwrite
        = m.organize fs true overwrite := by
  intro m fs ow
  have h1 : (m.organize fs true ow).1 = fs := by
    unfold FileMover.organize
    cases hloop : m.organizeLoop true ow fs (FileMover.scan_directory fs m.source_folder) with
    | mk fs' ds =>
      have h := organizeLoop_dry_fs m ow (FileMover.scan_directory fs m.source_folder) fs
      rw [hloop] at h
      simpa [hloop] using h
  exact ⟨h1, by rw [h1]⟩

/-- Claim C8: in a real (non-dry-run) run, every per-file exception is caught
and the loop continues — `organize` always completes with exactly one
decision per scanned file and reaches its final summary entry, whatever the
per-file outcomes were. -/
theorem claim_C8_batch_isolation :
    ∀ (m : FileMover) (fs : FS) (overwrite : Bool),
      (m.organize fs false overwrite).2.length
        = (FileMover.scan_directory fs m.source_folder).length + 1 ∧
      (m.organize fs false overwrite).2.getLast? = some .summaryReal := by
  intro m fs ow
  unfold FileMover.organize
  cases hloop : m.organizeLoop false ow fs (FileMover.scan_directory fs m.source_folder) with
  | mk fs' ds =>
    have hlen := organizeLoop_length m false ow (FileMover.scan_directory fs m.source_folder) fs
    rw [hloop] at hlen
    constructor
    · simpa [hloop] using hlen
    · simp [hloop, List.getLast?_concat]

/-- Claim C1: for every call to a move operation (`FileMover.move_file` or the
standalone `move_file`) on an existing regular source file where the computed
destination path exists and `overwrite` is false, the call fails with
`FileExistsError` and the filesystem — in particular the source file and the
existing destination — is byte-for-byte unchanged. -/
theorem claim_C1_conflict_law :
    (∀ (m : FileMover) (fs : FS) (file : FilePath') (category : Option String),
      fs.wf → fs.isFile file →
      fs.pathExists (m.source_folder ++ [category.getD (m.categorize_file file)]
        ++ [pathName file]) →
      m.move_file fs file category false = (.fileExistsError, fs)) ∧
    (∀ (faults : Faults) (fs : FS) (src dst : FilePath') (max_retries : Nat),
      fs.wf → fs.isFile src → fs.pathExists dst →
      move_file faults fs src dst false max_retries = ((.fileExistsError, fs), 0, [])) :=
  ⟨fun m fs file category hwf hf hex =>
      fileMover_move_conflict m fs file category hwf hf hex,
   fun faults fs src dst mr hwf hs hex =>
      standalone_move_conflict faults fs src dst mr hwf hs hex⟩

theorem claim_C1_conflict_law_witness :
    (FileMover.mk ["r"] none).move_file
        ⟨[(["r", "a.txt"], "new"), (["r", "documents", "a.txt"], "old")],
         [[], ["r"], ["r", "documents"]]⟩ ["r", "a.txt"] none false
      = (.fileExistsError,
         ⟨[(["r", "a.txt"], "new"), (["r", "documents", "a.txt"], "old")],
          [[], ["r"], ["r", "documents"]]⟩) ∧
    move_file noFaults
        ⟨[(["r", "a.txt"], "new"), (["r", "documents", "a.txt"], "old")],
         [[], ["r"], ["r", "documents"]]⟩
        ["r", "a.txt"] ["r", "documents", "a.txt"] false 3
      = ((.fileExistsError,
          ⟨[(["r", "a.txt"], "new"), (["r", "documents", "a.txt"], "old")],
           [[], ["r"], ["r", "documents"]]⟩), 0, []) :=
  ⟨claim_C1_conflict_law.1 (FileMover.mk ["r"] none) _ _ none
      (by decide) (by decide) (by decide),
   claim_C1_conflict_law.2 noFaults _ _ _ 3 (by decide) (by decide) (by decide)⟩

/-- Claim C2 (counterexample): with source = destination (a file moved to the
very path it already occupies, which satisfies "source is an existing regular
file, the destination path exists, and overwrite is true"), the standalone
move does not succeed — it first unlinks the destination (the source itself)
and then raises `FileNotFoundError`. -/
theorem claim_C2_counterexample :
    FS.isFile ⟨[(["r", "documents", "a.txt"], "old")], [[], ["r"], ["r", "documents"]]⟩
      ["r", "documents", "a.txt"] = true ∧
    FS.pathExists ⟨[(["r", "documents", "a.txt"], "old")], [[], ["r"], ["r", "documents"]]⟩
      ["r", "documents", "a.txt"] = true ∧
    (move_file noFaults
      ⟨[(["r", "documents", "a.txt"], "old")], [[], ["r"], ["r", "documents"]]⟩
      ["r", "documents", "a.txt"] ["r", "documents", "a.txt"] true 3).1.1
      = .fileNotFoundError := by
  decide

/-- Claim C2 (amended): for both move entry points, when the source is an
existing regular file, the destination exists, `overwrite` is true, and the
destination path is neither the source itself nor a directory above it, the
call succeeds, the source no longer exists afterwards, and the destination's
content equals the pre-move source content. -/
theorem claim_C2_overwrite_law :
    (∀ (m : FileMover) (fs : FS) (file : FilePath') (category : Option String),
      fs.wf → fs.isFile file →
      fs.pathExists (m.source_folder ++ [category.getD (m.categorize_file file)]
        ++ [pathName file]) →
      ¬ (m.source_folder ++ [category.getD (m.categorize_file file)] ++ [pathName file])
          <+: file →
      (m.move_file fs file category true).1 = .ok ∧
      (m.move_file fs file category true).2.isFile file = false ∧
      (m.move_file fs file category true).2.readFile
        (m.source_folder ++ [category.getD (m.categorize_file file)] ++ [pathName file])
        = fs.readFile file) ∧
    (∀ (fs : FS) (src dst : FilePath') (max_retries : Nat),
      fs.wf → fs.isFile src → fs.pathExists dst → ¬ dst <+: src →
      (move_file noFaults fs src dst true max_retries).1.1 = .ok ∧
      (move_file noFaults fs src dst true max_retries).1.2.isFile src = false ∧
      (move_file noFaults fs src dst true max_retries).1.2.readFile dst
        = fs.readFile src) :=
  ⟨fun m fs file category hwf hf hex hnp =>
      fileMover_move_overwrite m fs file category hwf hf hex hnp,
   fun fs src dst mr hwf hs hex hnp =>
      ⟨(standalone_move_overwrite fs src dst mr hwf hs hex hnp).1,
       (standalone_move_overwrite fs src dst mr hwf hs hex hnp).2.1,
       (standalone_move_overwrite fs src dst mr hwf hs hex hnp).2.2.1⟩⟩

theorem claim_C2_overwrite_law_witness :
    ((FileMover.mk ["r"] none).move_file
        ⟨[(["r", "a.txt"], "new"), (["r", "documents", "a.txt"], "old")],
         [[], ["r"], ["r", "documents"]]⟩ ["r", "a.txt"] none true).1 = .ok ∧
    ((FileMover.mk ["r"] none).move_file
        ⟨[(["r", "a.txt"], "new"), (["r", "documents", "a.txt"], "old")],
         [[], ["r"], ["r", "documents"]]⟩ ["r", "a.txt"] none true).2.readFile
        ["r", "documents", "a.txt"] = some "new" ∧
    ((move_file noFaults
        ⟨[(["r", "b.txt"], "src"), (["r", "out", "b.txt"], "stale")],
         [[], ["r"], ["r", "out"]]⟩ ["r", "b.txt"] ["r", "out", "b.txt"] true 3).1.1 = .ok) := by
  refine ⟨?_, ?_, ?_⟩
  · exact (claim_C2_overwrite_law.1 (FileMover.mk ["r"] none) _ _ none
      (by decide) (by decide) (by decide) (by decide)).1
  · have h := (claim_C2_overwrite_law.1 (FileMover.mk ["r"] none)
      ⟨[(["r", "a.txt"], "new"), (["r", "documents", "a.txt"], "old")],
       [[], ["r"], ["r", "documents"]]⟩ ["r", "a.txt"] none
      (by decide) (by decide) (by decide) (by decide)).2.2
    simpa using h
  · exact (claim_C2_overwrite_law.2
      ⟨[(["r", "b.txt"], "src"), (["r", "out", "b.txt"], "stale")],
       [[], ["r"], ["r", "out"]]⟩ ["r", "b.txt"] ["r", "out", "b.txt"] 3
      (by decide) (by decide) (by decide) (by decide)).1

/-- Claim C9: the two move entry points treat a missing source differently —
`FileMover.move_file` logs and returns normally without touching the
filesystem, while the standalone `move_file` raises `FileNotFoundError`. -/
theorem claim_C9_missing_source :
    ∀ (m : FileMover) (faults : Faults) (fs : FS) (p dst : FilePath')
      (category : Option String) (overwrite : Bool) (max_retries : Nat),
      fs.isFile p = false →
      m.move_file fs p category overwrite = (.skipped, fs) ∧
      move_file faults fs p dst overwrite max_retries
        = ((.fileNotFoundError, fs), 0, []) := by
  intro m faults fs p dst category overwrite max_retries h
  constructor
  · unfold FileMover.move_file
    simp [h]
  · unfold move_file
    simp [h]

theorem claim_C9_missing_source_witness :
    (FileMover.mk ["r"] none).move_file ⟨[], [[], ["r"]]⟩ ["r", "ghost.txt"] none false
      = (.skipped, ⟨[], [[], ["r"]]⟩) ∧
    move_file noFaults ⟨[], [[], ["r"]]⟩ ["r", "ghost.txt"] ["r", "x", "ghost.txt"] false 3
      = ((.fileNotFoundError, ⟨[], [[], ["r"]]⟩), 0, []) :=
  claim_C9_missing_source (FileMover.mk ["r"] none) noFaults ⟨[], [[], ["r"]]⟩
    ["r", "ghost.txt"] ["r", "x", "ghost.txt"] none false 3 (by decide)

/-- Claim C10: a file already sitting at its computed destination
(`{source_folder}/{category}/{filename}`) is first deleted as the "existing
destination" when `overwrite` is true, and the subsequent move raises because
the source is gone: the call fails yet the file no longer exists.  Since
`scan_directory` recursively includes files inside category subfolders, a
second `organize(overwrite=true)` over an already-organized tree deletes the
previously organized files. -/
theorem claim_C10_self_destination :
    ∀ (m : FileMover) (fs : FS) (file : FilePath') (c : Content),
      fs.wf → fs.isFile file →
      file = m.source_folder ++ [m.categorize_file file] ++ [pathName file] →
      (m.move_file fs file none true = (.fileNotFoundError, fs.unlink file) ∧
       (fs.unlink file).isFile file = false) ∧
      file ∈ FileMover.scan_directory fs m.source_folder ∧
      (fs.files = [(file, c)] →
        ((m.organize fs false true).1).isFile file = false) := by
  intro m fs file c hwf hfile hself
  have hgone : (fs.unlink file).isFile file = false := by
    unfold FS.isFile FS.unlink
    rw [lookup_filter_drop _ _ _ (fun v => by simp)]
    rfl
  have hmv : m.move_file fs file none true = (.fileNotFoundError, fs.unlink file) :=
    fileMover_move_self_dest m fs file none hwf hfile hself
  have hdirc : fs.isDir (m.source_folder ++ [m.categorize_file file]) := by
    have h1 := wf_file_parent_dir hwf hfile
    rw [hself, List.dropLast_concat] at h1
    exact h1
  have hdirroot : fs.isDir m.source_folder := by
    have h2 := wf_dir_parent_dir hwf hdirc (by simp)
    rwa [List.dropLast_concat] at h2
  have hpre : m.source_folder <+: file := by
    rw [hself, List.append_assoc]
    exact List.prefix_append _ _
  have hneq : file ≠ m.source_folder := by
    intro hcontra
    have := congrArg List.length hcontra
    rw [hself] at this
    simp at this
  refine ⟨⟨hmv, hgone⟩, ?_, ?_⟩
  · obtain ⟨c', hc'⟩ := isFile_exists_content hfile
    exact mem_scan_directory (mem_of_lookup_eq_some hc') hpre hneq hdirroot
  · intro hfiles
    have hscan : FileMover.scan_directory fs m.source_folder = [file] := by
      unfold FileMover.scan_directory
      rw [if_pos hdirroot, hfiles]
      have h1 : m.source_folder.isPrefixOf file = true :=
        List.isPrefixOf_iff_prefix.mpr hpre
      have h2 : (file == m.source_folder) = false := by simpa using hneq
      simp [h1, h2]
    have hmv' : m.move_file fs file (some (m.categorize_file file)) true
        = (.fileNotFoundError, fs.unlink file) :=
      fileMover_move_self_dest m fs file (some (m.categorize_file file)) hwf hfile
        (by simpa using hself)
    have hstep : m.organizeStep false true fs file
        = (fs.unlink file, .failedCaught file .fileNotFoundError) := by
      unfold FileMover.organizeStep
      simp only [Bool.false_eq_true, if_false, hmv', Outcome.isError, if_true]
    have hloop : m.organizeLoop false true fs [file]
        = (fs.unlink file, [.failedCaught file .fileNotFoundError]) := by
      simp only [FileMover.organizeLoop, hstep]
    unfold FileMover.organize
    rw [hscan]
    simp only [hloop]
    exact hgone

/-- Claim C4: in the standalone `move_file` primitive, a `PermissionError`
during the move is retried up to `max_retries` additional attempts with a
fixed 0.5-unit sleep between attempts and re-raised only after exhaustion; a
non-`PermissionError` failure is not retried and propagates immediately; and
with `max_retries = 3` and a move failing twice before succeeding, exactly 3
move attempts and 2 backoff waits occur, the call succeeds and the source is
removed. -/
theorem claim_C4_retry_policy :
    (∀ (faults : Faults) (fs : FS) (src dst : FilePath') (overwrite : Bool)
        (max_retries : Nat),
      fs.isFile src → fs.isDir dst.dropLast → fs.pathExists dst = false →
      (∀ i, faults i = some .permission) →
      move_file faults fs src dst overwrite max_retries
        = ((.permissionError, fs), max_retries + 1, List.replicate max_retries backoff)) ∧
    (∀ (faults : Faults) (fs : FS) (src dst : FilePath') (overwrite : Bool)
        (max_retries : Nat),
      fs.isFile src → fs.isDir dst.dropLast → fs.pathExists dst = false →
      faults 0 = some .other →
      move_file faults fs src dst overwrite max_retries = ((.otherError, fs), 1, [])) ∧
    (∀ (faults : Faults) (fs : FS) (src dst : FilePath') (overwrite : Bool)
        (max_retries k : Nat),
      k ≤ max_retries →
      fs.isFile src → fs.isDir dst.dropLast → fs.pathExists dst = false →
      (∀ i, i < k → faults i = some .permission) → faults k = none →
      (move_file faults fs src dst overwrite max_retries).1.1 = .ok ∧
      (move_file faults fs src dst overwrite max_retries).1.2.isFile src = false ∧
      (move_file faults fs src dst overwrite max_retries).2
        = (k + 1, List.replicate k backoff)) ∧
    ((move_file (fun i => if i < 2 then some .permission else none)
        ⟨[(["r", "a.txt"], "data")], [[], ["r"], ["r", "out"]]⟩
        ["r", "a.txt"] ["r", "out", "a.txt"] false 3).1.1 = .ok ∧
     (move_file (fun i => if i < 2 then some .permission else none)
        ⟨[(["r", "a.txt"], "data")], [[], ["r"], ["r", "out"]]⟩
        ["r", "a.txt"] ["r", "out", "a.txt"] false 3).2.1 = 3 ∧
     (move_file (fun i => if i < 2 then some .permission else none)
        ⟨[(["r", "a.txt"], "data")], [[], ["r"], ["r", "out"]]⟩
        ["r", "a.txt"] ["r", "out", "a.txt"] false 3).2.2 = [backoff, backoff] ∧
     (move_file (fun i => if i < 2 then some .permission else none)
        ⟨[(["r", "a.txt"], "data")], [[], ["r"], ["r", "out"]]⟩
        ["r", "a.txt"] ["r", "out", "a.txt"] false 3).1.2.isFile ["r", "a.txt"] = false) := by
  refine ⟨?_, ?_, ?_, by decide, by decide, by decide, by decide⟩
  · intro faults fs src dst ow mr hsrc hdir hnex hp
    rw [standalone_move_reaches_retry faults fs src dst ow mr hsrc hdir hnex]
    exact retryMove_all_perm faults src dst fs hp mr 0
  · intro faults fs src dst ow mr hsrc hdir hnex h0
    rw [standalone_move_reaches_retry faults fs src dst ow mr hsrc hdir hnex]
    cases mr <;> simp [retryMove, h0]
  · intro faults fs src dst ow mr k hk hsrc hdir hnex hperm h0
    have hmain : move_file faults fs src dst ow mr
        = ((match shutilMove fs src dst with
            | .ok fs3 => (Outcome.ok, fs3)
            | .error e => (e, fs)), k + 1, List.replicate k backoff) := by
      rw [standalone_move_reaches_retry faults fs src dst ow mr hsrc hdir hnex]
      exact retryMove_k_perm faults src dst fs k 0 mr hk
        (fun i hi => by simpa using hperm i hi) (by simpa using h0)
    obtain ⟨c, hc⟩ := isFile_exists_content hsrc
    have hne : dst ≠ src := by
      intro hcontra
      subst hcontra
      unfold FS.pathExists at hnex
      rw [hsrc] at hnex
      simp at hnex
    have hmv : shutilMove fs src dst
        = .ok ⟨(dst, c) :: fs.files.filter (fun pc => !(pc.1 == src)), fs.dirs⟩ := by
      unfold shutilMove
      rw [hc]
    rw [hmain, hmv]
    refine ⟨rfl, ?_, rfl⟩
    unfold FS.isFile
    rw [moved_src_gone hne]
    rfl

theorem claim_C4_retry_policy_witness :
    move_file (fun i => if 0 < 1 + i then some .permission else none)
        ⟨[(["r", "a.txt"], "data")], [[], ["r"], ["r", "out"]]⟩
        ["r", "a.txt"] ["r", "out", "a.txt"] false 2
      = ((.permissionError, ⟨[(["r", "a.txt"], "data")], [[], ["r"], ["r", "out"]]⟩),
         3, [backoff, backoff]) ∧
    move_file (fun _ => some .other)
        ⟨[(["r", "a.txt"], "data")], [[], ["r"], ["r", "out"]]⟩
        ["r", "a.txt"] ["r", "out", "a.txt"] false 3
      = ((.otherError, ⟨[(["r", "a.txt"], "data")], [[], ["r"], ["r", "out"]]⟩), 1, []) ∧
    (move_file (fun i => if i < 1 then some .permission else none)
        ⟨[(["r", "a.txt"], "data")], [[], ["r"], ["r", "out"]]⟩
        ["r", "a.txt"] ["r", "out", "a.txt"] false 3).1.1 = .ok := by
  refine ⟨?_, ?_, ?_⟩
  · have h := claim_C4_retry_policy.1 (fun i => if 0 < 1 + i then some .permission else none)
      ⟨[(["r", "a.txt"], "data")], [[], ["r"], ["r", "out"]]⟩
      ["r", "a.txt"] ["r", "out", "a.txt"] false 2
      (by decide) (by decide) (by decide)
      (fun i => by simp)
    simpa using h
  · exact claim_C4_retry_policy.2.1 (fun _ => some .other)
      ⟨[(["r", "a.txt"], "data")], [[], ["r"], ["r", "out"]]⟩
      ["r", "a.txt"] ["r", "out", "a.txt"] false 3
      (by decide) (by decide) (by decide) rfl
  · exact (claim_C4_retry_policy.2.2.1 (fun i => if i < 1 then some .permission else none)
      ⟨[(["r", "a.txt"], "data")], [[], ["r"], ["r", "out"]]⟩
      ["r", "a.txt"] ["r", "out", "a.txt"] false 3 1 (by omega)
      (by decide) (by decide) (by decide)
      (fun i hi => by
        have hi0 : i = 0 := by omega
        subst hi0
        rfl)
      rfl).1

theorem claim_C10_self_destination_witness :
    FS.wf ⟨[(["r", "documents", "a.txt"], "old")], [[], ["r"], ["r", "documents"]]⟩ ∧
    (FileMover.mk ["r"] none).move_file
        ⟨[(["r", "documents", "a.txt"], "old")], [[], ["r"], ["r", "documents"]]⟩
        ["r", "documents", "a.txt"] none true
      = (.fileNotFoundError,
         FS.unlink ⟨[(["r", "documents", "a.txt"], "old")], [[], ["r"], ["r", "documents"]]⟩
           ["r", "documents", "a.txt"]) ∧
    ["r", "documents", "a.txt"] ∈ FileMover.scan_directory
        ⟨[(["r", "documents", "a.txt"], "old")], [[], ["r"], ["r", "documents"]]⟩ ["r"] ∧
    ((FileMover.mk ["r"] none).organize
        ⟨[(["r", "documents", "a.txt"], "old")], [[], ["r"], ["r", "documents"]]⟩
        false true).1.isFile ["r", "documents", "a.txt"] = false := by
  have h := claim_C10_self_destination (FileMover.mk ["r"] none)
    ⟨[(["r", "documents", "a.txt"], "old")], [[], ["r"], ["r", "documents"]]⟩
    ["r", "documents", "a.txt"] "old" (by decide) (by decide) (by decide)
  exact ⟨by decide, h.1.1, h.2.1, h.2.2 (by decide)⟩

end FileOrganizer
